import Mathlib

/-!
Verification of the DateHereNow signaling server (server.js).

The repository bundles three server configurations in one file:
a discovery/signal-relay configuration (socket ids are the identities,
a raw signal event carries to/from/signal fields), a registry
configuration (a login event registers a caller-chosen user id in the
in-memory users object, and offer/answer/ice-candidate/chat-message
events are routed through that object), and a second signal-relay
configuration. Both styles are embedded below: the registry dispatcher
as a step function over a server state, and the discovery variant as
its own step functions.
-/

namespace DateHere

/-- Socket identifiers (socket.id values). -/
abbrev SocketId := String

/-- Caller-supplied logical user identifiers. -/
abbrev UserId := String

/-- A JavaScript-object-style string map, as used for the in-memory
store `let users = ...` (userId to socket.id) and for the
socket.userId properties. Keys are unique on every state reachable
from the empty object. -/
abbrev ObjMap := List (String × String)

/-- Property assignment `m[k] = v`: overwrite in place if the key is
present, append otherwise (JavaScript object assignment). -/
def objSet : ObjMap → String → String → ObjMap
  | [], k, v => [(k, v)]
  | p :: t, k, v => if p.1 = k then (k, v) :: t else p :: objSet t k v

/-- Property read `m[k]`, absent keys give undefined (`none`). -/
def objGet : ObjMap → String → Option String
  | [], _ => none
  | p :: t, k => if p.1 = k then some p.2 else objGet t k

/-- `delete m[k]`: remove the entry for `k` if present. -/
def objDelete : ObjMap → String → ObjMap
  | [], _ => []
  | p :: t, k => if p.1 = k then objDelete t k else p :: objDelete t k

/-- `Object.keys(m)`. -/
def objKeys (m : ObjMap) : List String := m.map (fun p => p.1)

theorem objGet_objSet_self (m : ObjMap) (k v : String) :
    objGet (objSet m k v) k = some v := by
  induction m with
  | nil => simp [objSet, objGet]
  | cons p t ih =>
    by_cases h : p.1 = k
    · simp [objSet, objGet, h]
    · simp [objSet, objGet, h, ih]

theorem objGet_objSet_other (m : ObjMap) (k v q : String) (hq : q ≠ k) :
    objGet (objSet m k v) q = objGet m q := by
  have hkq : ¬ k = q := fun hc => hq hc.symm
  induction m with
  | nil => simp [objSet, objGet, hkq]
  | cons p t ih =>
    by_cases h : p.1 = k
    · have h2 : ¬ p.1 = q := fun hc => hq (hc.symm.trans h)
      simp [objSet, objGet, h, h2, hkq]
    · by_cases h2 : p.1 = q
      · simp [objSet, objGet, h, h2, hq]
      · simp [objSet, objGet, h, h2, ih]

theorem objGet_objDelete_self (m : ObjMap) (k : String) :
    objGet (objDelete m k) k = none := by
  induction m with
  | nil => simp [objDelete, objGet]
  | cons p t ih =>
    by_cases h : p.1 = k
    · simp [objDelete, h, ih]
    · simp [objDelete, objGet, h, ih]

theorem objGet_objDelete_other (m : ObjMap) (k q : String) (hq : q ≠ k) :
    objGet (objDelete m k) q = objGet m q := by
  have hkq : ¬ k = q := fun hc => hq hc.symm
  induction m with
  | nil => simp [objDelete]
  | cons p t ih =>
    by_cases h : p.1 = k
    · have h2 : ¬ p.1 = q := fun hc => hq (hc.symm.trans h)
      simp [objDelete, objGet, h, h2, hkq, ih]
    · by_cases h2 : p.1 = q
      · simp [objDelete, objGet, h, h2, hq]
      · simp [objDelete, objGet, h, h2, ih]

theorem mem_objKeys_objSet_elim (m : ObjMap) (k v x : String)
    (hx : x ∈ objKeys (objSet m k v)) : x ∈ objKeys m ∨ x = k := by
  induction m with
  | nil =>
    simp [objSet, objKeys] at hx
    exact Or.inr hx
  | cons p t ih =>
    by_cases h : p.1 = k
    · simp only [objSet, h, if_true, objKeys, List.map_cons, List.mem_cons] at hx ⊢
      rcases hx with hx | hx
      · exact Or.inr hx
      · exact Or.inl (Or.inr hx)
    · simp only [objSet, h, if_false, objKeys, List.map_cons, List.mem_cons] at hx ⊢
      rcases hx with hx | hx
      · exact Or.inl (Or.inl hx)
      · rcases ih hx with hx2 | hx2
        · exact Or.inl (Or.inr hx2)
        · exact Or.inr hx2

theorem objKeys_objSet_nodup (m : ObjMap) (k v : String)
    (h : (objKeys m).Nodup) : (objKeys (objSet m k v)).Nodup := by
  induction m with
  | nil => simp [objSet, objKeys]
  | cons p t ih =>
    simp only [objKeys, List.map_cons, List.nodup_cons] at h
    by_cases hp : p.1 = k
    · simp only [objSet, hp, if_true, objKeys, List.map_cons, List.nodup_cons]
      exact ⟨hp ▸ h.1, h.2⟩
    · simp only [objSet, hp, if_false, objKeys, List.map_cons, List.nodup_cons]
      refine ⟨fun hc => ?_, ih h.2⟩
      rcases mem_objKeys_objSet_elim t k v p.1 hc with hx | hx
      · exact h.1 hx
      · exact hp hx

theorem objKeys_objDelete_sublist (m : ObjMap) (k : String) :
    (objKeys (objDelete m k)).Sublist (objKeys m) := by
  induction m with
  | nil => simp [objDelete]
  | cons p t ih =>
    by_cases h : p.1 = k
    · simp only [objDelete, h, if_true, objKeys, List.map_cons]
      exact ih.trans (List.sublist_cons_self _ _)
    · simpa [objDelete, objKeys, h] using ih.cons₂ p.1

theorem objKeys_objDelete_nodup (m : ObjMap) (k : String)
    (h : (objKeys m).Nodup) : (objKeys (objDelete m k)).Nodup :=
  (objKeys_objDelete_sublist m k).nodup h

theorem mem_objKeys_objSet (m : ObjMap) (k v : String) :
    k ∈ objKeys (objSet m k v) := by
  induction m with
  | nil => simp [objSet, objKeys]
  | cons p t ih =>
    by_cases h : p.1 = k
    · simp [objSet, objKeys, h]
    · simp only [objSet, h, if_false, objKeys, List.map_cons, List.mem_cons]
      exact Or.inr ih

theorem not_mem_objKeys_of_objGet_none (m : ObjMap) (k : String)
    (h : objGet m k = none) : k ∉ objKeys m := by
  induction m with
  | nil => simp [objKeys]
  | cons p t ih =>
    by_cases hp : p.1 = k
    · simp [objGet, hp] at h
    · simp only [objGet, hp, if_false] at h
      simp only [objKeys, List.map_cons, List.mem_cons]
      rintro (hc | hc)
      · exact hp hc.symm
      · exact ih h hc

/-- State of the registry-configuration server: the in-memory
users object (userId to socket.id), the socket.userId properties
(socket.id to userId, absent while the socket has not logged in),
and the set of currently connected socket ids. -/
structure ServerState where
  users : ObjMap
  socketUserId : ObjMap
  conns : List SocketId
  deriving DecidableEq, Repr

/-- Inbound events of the registry configuration. A login carries the
caller-supplied identifier, which may be missing (undefined/null) or
empty; routed events carry a target user id and an opaque blob. -/
inductive InEvent
  | login (userId : Option String)
  | offer (targetUserId : String) (offer : String)
  | answer (targetUserId : String) (answer : String)
  | iceCandidate (targetUserId : String) (candidate : String)
  | chatMessage (targetUserId : String) (message : String)
  | disconnect
  deriving DecidableEq, Repr

/-- Outbound events of the registry configuration. Routed events carry
the fromUserId the server attaches (undefined when the sending socket
never logged in) and the forwarded blob. -/
inductive OutEvent
  | userList (ids : List String)
  | offer (fromUserId : Option String) (offer : String)
  | answer (fromUserId : Option String) (answer : String)
  | iceCandidate (fromUserId : Option String) (candidate : String)
  | chatMessage (fromUserId : Option String) (message : String)
  deriving DecidableEq, Repr

/-- An emit instruction: either to one socket id (io.to(sid).emit) or
to every connected socket (io.emit). -/
inductive Emit
  | toSock (sid : SocketId) (ev : OutEvent)
  | broadcastAll (ev : OutEvent)
  deriving DecidableEq, Repr

/-- One step of the registry-configuration dispatcher: the handler for
socket `self` processes event `ev` against state `st`, returning the
new state and the list of emit instructions, in order. Mirrors the
socket.on handlers of the registry configuration of server.js. -/
def handle (st : ServerState) (self : SocketId) : InEvent → ServerState × List Emit
  | InEvent.login uid =>
      match uid with
      | none => (st, [])
      | some u =>
          if u = "" then (st, [])
          else
            ({ st with
                users := objSet st.users u self,
                socketUserId := objSet st.socketUserId self u },
             [Emit.broadcastAll (OutEvent.userList (objKeys (objSet st.users u self)))])
  | InEvent.offer target blob =>
      match objGet st.users target with
      | some tsid => (st, [Emit.toSock tsid (OutEvent.offer (objGet st.socketUserId self) blob)])
      | none => (st, [])
  | InEvent.answer target blob =>
      match objGet st.users target with
      | some tsid => (st, [Emit.toSock tsid (OutEvent.answer (objGet st.socketUserId self) blob)])
      | none => (st, [])
  | InEvent.iceCandidate target blob =>
      match objGet st.users target with
      | some tsid => (st, [Emit.toSock tsid (OutEvent.iceCandidate (objGet st.socketUserId self) blob)])
      | none => (st, [])
  | InEvent.chatMessage target blob =>
      match objGet st.users target with
      | some tsid => (st, [Emit.toSock tsid (OutEvent.chatMessage (objGet st.socketUserId self) blob)])
      | none => (st, [])
  | InEvent.disconnect =>
      match objGet st.socketUserId self with
      | some u =>
          if u = "" then
            ({ st with conns := st.conns.filter (fun c => c ≠ self) }, [])
          else
            ({ st with
                users := objDelete st.users u,
                conns := st.conns.filter (fun c => c ≠ self) },
             [Emit.broadcastAll (OutEvent.userList (objKeys (objDelete st.users u)))])
      | none => ({ st with conns := st.conns.filter (fun c => c ≠ self) }, [])

/-- Transport delivery of one emit instruction over the set of
connected sockets: io.to(sid) reaches sid when it is connected,
io.emit reaches every connected socket. -/
def deliverEmit (conns : List SocketId) : Emit → List (SocketId × OutEvent)
  | Emit.toSock sid ev => if sid ∈ conns then [(sid, ev)] else []
  | Emit.broadcastAll ev => conns.map (fun c => (c, ev))

/-- Delivery of a list of emit instructions, in order. -/
def deliverAll (conns : List SocketId) : List Emit → List (SocketId × OutEvent)
  | [] => []
  | e :: es => deliverEmit conns e ++ deliverAll conns es

/-- Events a given socket receives from a list of emit instructions. -/
def deliveredTo (conns : List SocketId) (emits : List Emit) (sid : SocketId) : List OutEvent :=
  ((deliverAll conns emits).filter (fun p => p.1 = sid)).map (fun p => p.2)

/-- The four routed event kinds of the registry configuration. -/
inductive RoutedKind
  | offer
  | answer
  | iceCandidate
  | chatMessage
  deriving DecidableEq, Repr

/-- Build the inbound routed event of a given kind. -/
def routedIn : RoutedKind → String → String → InEvent
  | RoutedKind.offer, t, b => InEvent.offer t b
  | RoutedKind.answer, t, b => InEvent.answer t b
  | RoutedKind.iceCandidate, t, b => InEvent.iceCandidate t b
  | RoutedKind.chatMessage, t, b => InEvent.chatMessage t b

/-- Build the outbound routed event of a given kind. -/
def routedOut : RoutedKind → Option String → String → OutEvent
  | RoutedKind.offer, f, b => OutEvent.offer f b
  | RoutedKind.answer, f, b => OutEvent.answer f b
  | RoutedKind.iceCandidate, f, b => OutEvent.iceCandidate f b
  | RoutedKind.chatMessage, f, b => OutEvent.chatMessage f b

/-- The opaque blob carried by an outbound routed event. -/
def payloadOf : OutEvent → Option String
  | OutEvent.userList _ => none
  | OutEvent.offer _ b => some b
  | OutEvent.answer _ b => some b
  | OutEvent.iceCandidate _ b => some b
  | OutEvent.chatMessage _ b => some b

/-- Whether an outbound event names a given identifier. -/
def outEventNames : OutEvent → String → Bool
  | OutEvent.userList ids, x => x ∈ ids
  | OutEvent.offer f _, x => f = some x
  | OutEvent.answer f _, x => f = some x
  | OutEvent.iceCandidate f _, x => f = some x
  | OutEvent.chatMessage f _, x => f = some x

/-- Whether an emit instruction carries an event naming the identifier. -/
def emitNames : Emit → String → Bool
  | Emit.toSock _ ev, x => outEventNames ev x
  | Emit.broadcastAll ev, x => outEventNames ev x

/-- State of the discovery/signal-relay configuration: the connected
socket ids (io.sockets.sockets). -/
structure SigState where
  conns : List SocketId
  deriving DecidableEq, Repr

/-- Outbound events of the discovery/signal-relay configuration. -/
inductive Out1
  | usersPresent (ids : List String)
  | userJoined (id : String)
  | signal (fromId : String) (payload : String)
  | userLeft (id : String)
  deriving DecidableEq, Repr

/-- Emit instructions of the discovery/signal-relay configuration:
io.to/socket.emit to one socket, io.emit to all, and
socket.broadcast.emit to all but the emitting socket. -/
inductive Emit1
  | toSock (sid : SocketId) (ev : Out1)
  | broadcastAll (ev : Out1)
  | broadcastOthers (self : SocketId) (ev : Out1)
  deriving DecidableEq, Repr

/-- The connection handler of the discovery configuration: the new
socket joins the socket set, receives the list of all other connected
socket ids, and all others are told it joined. -/
def connectStep (st : SigState) (self : SocketId) : SigState × List Emit1 :=
  (SigState.mk (st.conns ++ [self]),
   [Emit1.toSock self (Out1.usersPresent ((st.conns ++ [self]).filter (fun id => id ≠ self))),
    Emit1.broadcastOthers self (Out1.userJoined self)])

/-- The signal handler of the discovery configuration: the to, from and
signal fields are read from the client data and the signal is emitted
to the socket named by the to field, with the client-supplied from
field attached. The handling socket plays no role. -/
def signalStep (st : SigState) (_self : SocketId) (toField fromField sigField : String) :
    SigState × List Emit1 :=
  (st, [Emit1.toSock toField (Out1.signal fromField sigField)])

/-- The disconnect handler of the discovery configuration: the socket
leaves the socket set and user-left carrying its socket id is emitted
to everyone. -/
def disconnectStep1 (st : SigState) (self : SocketId) : SigState × List Emit1 :=
  (SigState.mk (st.conns.filter (fun c => c ≠ self)),
   [Emit1.broadcastAll (Out1.userLeft self)])

/-- Delivery of one emit instruction of the discovery configuration. -/
def deliverEmit1 (conns : List SocketId) : Emit1 → List (SocketId × Out1)
  | Emit1.toSock sid ev => if sid ∈ conns then [(sid, ev)] else []
  | Emit1.broadcastAll ev => conns.map (fun c => (c, ev))
  | Emit1.broadcastOthers s ev => (conns.filter (fun c => c ≠ s)).map (fun c => (c, ev))

/-- Delivery of a list of emit instructions of the discovery
configuration, in order. -/
def deliverAll1 (conns : List SocketId) : List Emit1 → List (SocketId × Out1)
  | [] => []
  | e :: es => deliverEmit1 conns e ++ deliverAll1 conns es

/-- Events a given socket receives, discovery configuration. -/
def deliveredTo1 (conns : List SocketId) (emits : List Emit1) (sid : SocketId) : List Out1 :=
  ((deliverAll1 conns emits).filter (fun p => p.1 = sid)).map (fun p => p.2)

/-- Registry operations, as performed by the login handler
(register = assignment into the users object) and the disconnect
handler (unregister = delete from the users object). -/
inductive RegOp
  | register (id : String) (conn : String)
  | unregister (id : String)
  deriving DecidableEq, Repr

/-- Apply one registry operation to the users object. -/
def applyOp (m : ObjMap) : RegOp → ObjMap
  | RegOp.register i c => objSet m i c
  | RegOp.unregister i => objDelete m i

/-- Apply a sequence of registry operations to the empty users object. -/
def applyOps (ops : List RegOp) : ObjMap := ops.foldl applyOp []

/-- Spec-side reference for the registry claim, following the spec
words: the most recently registered connection for an id, or absent if
the most recent operation naming the id was unregister or the id was
never named. -/
def specMostRecentBinding (ops : List RegOp) (id : String) : Option String :=
  ops.foldl
    (fun acc op =>
      match op with
      | RegOp.register i c => if i = id then some c else acc
      | RegOp.unregister i => if i = id then none else acc)
    none

theorem deliveredTo_cons (conns : List SocketId) (e : Emit) (es : List Emit) (c : SocketId) :
    deliveredTo conns (e :: es) c = deliveredTo conns [e] c ++ deliveredTo conns es c := by
  simp [deliveredTo, deliverAll, List.filter_append, List.map_append]

theorem deliveredTo_toSock_mem (conns : List SocketId) (ev : OutEvent) (t : SocketId)
    (h : t ∈ conns) : deliveredTo conns [Emit.toSock t ev] t = [ev] := by
  simp [deliveredTo, deliverAll, deliverEmit, h]

theorem deliveredTo_toSock_other (conns : List SocketId) (ev : OutEvent) (t c : SocketId)
    (h : c ≠ t) : deliveredTo conns [Emit.toSock t ev] c = [] := by
  by_cases hm : t ∈ conns
  · simp [deliveredTo, deliverAll, deliverEmit, hm, Ne.symm h]
  · simp [deliveredTo, deliverAll, deliverEmit, hm]

theorem deliveredTo_broadcastAll (conns : List SocketId) (ev : OutEvent) (c : SocketId) :
    deliveredTo conns [Emit.broadcastAll ev] c = List.replicate (conns.count c) ev := by
  induction conns with
  | nil => simp [deliveredTo, deliverAll, deliverEmit]
  | cons c0 t ih =>
    by_cases h : c0 = c
    · simp only [deliveredTo, deliverAll, deliverEmit, List.map_cons, List.append_nil,
        List.filter_cons, List.map] at ih ⊢
      simp [h, List.count_cons, ih, List.replicate_succ]
    · simp only [deliveredTo, deliverAll, deliverEmit, List.map_cons, List.append_nil,
        List.filter_cons, List.map] at ih ⊢
      simp [h, List.count_cons, ih, Ne.symm h]

theorem deliveredTo1_cons (conns : List SocketId) (e : Emit1) (es : List Emit1) (c : SocketId) :
    deliveredTo1 conns (e :: es) c = deliveredTo1 conns [e] c ++ deliveredTo1 conns es c := by
  simp [deliveredTo1, deliverAll1, List.filter_append, List.map_append]

theorem deliveredTo1_toSock_mem (conns : List SocketId) (ev : Out1) (t : SocketId)
    (h : t ∈ conns) : deliveredTo1 conns [Emit1.toSock t ev] t = [ev] := by
  simp [deliveredTo1, deliverAll1, deliverEmit1, h]

theorem deliveredTo1_broadcastOthers_self (conns : List SocketId) (ev : Out1) (s : SocketId) :
    deliveredTo1 conns [Emit1.broadcastOthers s ev] s = [] := by
  induction conns with
  | nil => simp [deliveredTo1, deliverAll1, deliverEmit1]
  | cons c0 t ih =>
    by_cases h : c0 = s
    · simpa [deliveredTo1, deliverAll1, deliverEmit1, List.filter_cons, h] using ih
    · simpa [deliveredTo1, deliverAll1, deliverEmit1, List.filter_cons, h] using ih

theorem objGet_foldl_applyOp (ops : List RegOp) (m : ObjMap) (id : String) :
    objGet (ops.foldl applyOp m) id =
      ops.foldl
        (fun acc op =>
          match op with
          | RegOp.register i c => if i = id then some c else acc
          | RegOp.unregister i => if i = id then none else acc)
        (objGet m id) := by
  induction ops generalizing m with
  | nil => rfl
  | cons op t ih =>
    cases op with
    | register i c =>
      by_cases h : i = id
      · subst h
        simp only [List.foldl_cons, applyOp, if_true]
        rw [ih, objGet_objSet_self]
      · simp only [List.foldl_cons, applyOp, h, if_false]
        rw [ih, objGet_objSet_other _ _ _ _ (Ne.symm h)]
    | unregister i =>
      by_cases h : i = id
      · subst h
        simp only [List.foldl_cons, applyOp, if_true]
        rw [ih, objGet_objDelete_self]
      · simp only [List.foldl_cons, applyOp, h, if_false]
        rw [ih, objGet_objDelete_other _ _ _ (Ne.symm h)]

theorem objKeys_foldl_applyOp_nodup (ops : List RegOp) (m : ObjMap)
    (h : (objKeys m).Nodup) : (objKeys (ops.foldl applyOp m)).Nodup := by
  induction ops generalizing m with
  | nil => exact h
  | cons op t ih =>
    cases op with
    | register i c => exact ih _ (objKeys_objSet_nodup m i c h)
    | unregister i => exact ih _ (objKeys_objDelete_nodup m i h)

/-- C2: over every sequence of register/unregister operations on the
users object, lookup afterwards agrees with the spec-side most-recent
binding; and after registering the same id twice the snapshot holds
exactly one entry for the id, bound to the second connection. -/
theorem registry_lookup_most_recent (ops : List RegOp) (id c1 c2 : String) :
    objGet (applyOps ops) id = specMostRecentBinding ops id ∧
    objGet (applyOps (ops ++ [RegOp.register id c1, RegOp.register id c2])) id = some c2 ∧
    (objKeys (applyOps (ops ++ [RegOp.register id c1, RegOp.register id c2]))).count id = 1 := by
  refine ⟨objGet_foldl_applyOp ops [] id, ?_, ?_⟩
  · rw [applyOps, List.foldl_append]
    simp only [List.foldl_cons, List.foldl_nil, applyOp]
    exact objGet_objSet_self _ _ _
  · rw [applyOps, List.foldl_append]
    simp only [List.foldl_cons, List.foldl_nil, applyOp]
    have hnd : (objKeys (objSet (objSet (List.foldl applyOp [] ops) id c1) id c2)).Nodup := by
      apply objKeys_objSet_nodup
      apply objKeys_objSet_nodup
      exact objKeys_foldl_applyOp_nodup ops [] (by simp [objKeys])
    exact List.count_eq_one_of_mem hnd (mem_objKeys_objSet _ _ _)

/-- C3: routing an offer, answer, ice-candidate or chat-message to a
target absent from the users object produces zero emits and leaves the
whole server state unchanged; the handler returns normally. -/
theorem routed_absent_target_silent (st : ServerState) (self : SocketId)
    (k : RoutedKind) (target blob : String)
    (hT : objGet st.users target = none) :
    handle st self (routedIn k target blob) = (st, []) := by
  cases k <;> simp [routedIn, handle, hT]

/-- C3 witness at a concrete input. -/
theorem routed_absent_target_silent_witness :
    handle (ServerState.mk [("alice", "s1")] [("s1", "alice")] ["s1"]) "s1"
        (routedIn RoutedKind.offer "bob" "sdp1")
      = (ServerState.mk [("alice", "s1")] [("s1", "alice")] ["s1"], []) :=
  routed_absent_target_silent _ "s1" RoutedKind.offer "bob" "sdp1" rfl

/-- C6: a login event whose identifier is missing or empty is ignored:
no state change and no emit, so the socket stays unannounced. -/
theorem login_falsy_ignored (st : ServerState) (self : SocketId) (uid : Option String)
    (h : uid = none ∨ uid = some "") :
    handle st self (InEvent.login uid) = (st, []) := by
  rcases h with h | h <;> subst h <;> simp [handle]

/-- C6 witness at a concrete input. -/
theorem login_falsy_ignored_witness :
    handle (ServerState.mk [] [] ["s1"]) "s1" (InEvent.login (some ""))
      = (ServerState.mk [] [] ["s1"], []) :=
  login_falsy_ignored _ "s1" (some "") (Or.inr rfl)

/-- C1 counterexample: the signal relay handler of the discovery
configuration forwards the from field taken from the sender's payload.
With sockets s1 and s2 connected, s1 sends a signal claiming to be
evil; s2 receives the signal with sender identity evil, which differs
from s1, the server-recorded identity of the sending connection. -/
theorem signal_relay_forwards_payload_identity :
    (signalStep (SigState.mk ["s1", "s2"]) "s1" "s2" "evil" "sdp").2
      = [Emit1.toSock "s2" (Out1.signal "evil" "sdp")] ∧
    deliveredTo1 ["s1", "s2"]
        ((signalStep (SigState.mk ["s1", "s2"]) "s1" "s2" "evil" "sdp").2) "s2"
      = [Out1.signal "evil" "sdp"] ∧
    ("evil" : String) ≠ "s1" := by
  refine ⟨rfl, by decide, by decide⟩

/-- C1 (amended): in the registry configuration, a routed event whose
target is present in the users object yields exactly one emit, to the
target's socket, delivered to it exactly once and to nobody else, and
the attached fromUserId is the server-recorded socket.userId of the
sending socket, not anything from the event payload. -/
theorem routed_present_target_server_from_id (st : ServerState) (self : SocketId)
    (k : RoutedKind) (target blob : String) (tsid : SocketId)
    (hT : objGet st.users target = some tsid) (hC : tsid ∈ st.conns) :
    (handle st self (routedIn k target blob)).2
      = [Emit.toSock tsid (routedOut k (objGet st.socketUserId self) blob)] ∧
    deliveredTo st.conns (handle st self (routedIn k target blob)).2 tsid
      = [routedOut k (objGet st.socketUserId self) blob] ∧
    ∀ c : SocketId, c ≠ tsid →
      deliveredTo st.conns (handle st self (routedIn k target blob)).2 c = [] := by
  have hemits : (handle st self (routedIn k target blob)).2
      = [Emit.toSock tsid (routedOut k (objGet st.socketUserId self) blob)] := by
    cases k <;> simp [routedIn, routedOut, handle, hT]
  refine ⟨hemits, ?_, ?_⟩
  · rw [hemits]
    exact deliveredTo_toSock_mem _ _ _ hC
  · intro c hc
    rw [hemits]
    exact deliveredTo_toSock_other _ _ _ _ hc

/-- C1 witness at a concrete input: s1 is logged in as alice, bob is
registered at socket s2; an offer routed to bob is delivered once to
s2 with fromUserId alice, and s1 receives nothing. -/
theorem routed_present_target_server_from_id_witness :
    (handle (ServerState.mk [("bob", "s2")] [("s1", "alice")] ["s1", "s2"]) "s1"
        (routedIn RoutedKind.offer "bob" "sdp1")).2
      = [Emit.toSock "s2" (routedOut RoutedKind.offer (some "alice") "sdp1")] ∧
    deliveredTo ["s1", "s2"]
        ((handle (ServerState.mk [("bob", "s2")] [("s1", "alice")] ["s1", "s2"]) "s1"
          (routedIn RoutedKind.offer "bob" "sdp1")).2) "s2"
      = [routedOut RoutedKind.offer (some "alice") "sdp1"] ∧
    deliveredTo ["s1", "s2"]
        ((handle (ServerState.mk [("bob", "s2")] [("s1", "alice")] ["s1", "s2"]) "s1"
          (routedIn RoutedKind.offer "bob" "sdp1")).2) "s1"
      = [] := by
  have h := routed_present_target_server_from_id
    (ServerState.mk [("bob", "s2")] [("s1", "alice")] ["s1", "s2"]) "s1"
    RoutedKind.offer "bob" "sdp1" "s2" rfl (by decide)
  exact ⟨h.1, h.2.1, h.2.2 "s1" (by decide)⟩

/-- C9: the forwarded routed event carries the sender's blob unchanged
as its payload, the outbound event consists of nothing but the
server-attached fromUserId and that blob, and the server state is
untouched by the forwarding. -/
theorem routed_payload_opaque (st : ServerState) (self : SocketId)
    (k : RoutedKind) (target blob : String) (tsid : SocketId)
    (hT : objGet st.users target = some tsid) :
    (handle st self (routedIn k target blob)).2
      = [Emit.toSock tsid (routedOut k (objGet st.socketUserId self) blob)] ∧
    payloadOf (routedOut k (objGet st.socketUserId self) blob) = some blob ∧
    (handle st self (routedIn k target blob)).1 = st := by
  refine ⟨?_, ?_, ?_⟩ <;> cases k <;> simp [routedIn, routedOut, handle, payloadOf, hT]

/-- C9 witness at a concrete input. -/
theorem routed_payload_opaque_witness :
    (handle (ServerState.mk [("bob", "s2")] [("s1", "alice")] ["s1", "s2"]) "s1"
        (routedIn RoutedKind.chatMessage "bob" "hello")).2
      = [Emit.toSock "s2" (routedOut RoutedKind.chatMessage (some "alice") "hello")] ∧
    payloadOf (routedOut RoutedKind.chatMessage (some "alice") "hello") = some "hello" ∧
    (handle (ServerState.mk [("bob", "s2")] [("s1", "alice")] ["s1", "s2"]) "s1"
        (routedIn RoutedKind.chatMessage "bob" "hello")).1
      = ServerState.mk [("bob", "s2")] [("s1", "alice")] ["s1", "s2"] :=
  routed_payload_opaque
    (ServerState.mk [("bob", "s2")] [("s1", "alice")] ["s1", "s2"]) "s1"
    RoutedKind.chatMessage "bob" "hello" "s2" rfl

/-- C10: a socket that never logged in can still route events; the
forwarded event is emitted (not dropped) and its fromUserId is the
undefined value. -/
theorem unannounced_sender_still_routed (st : ServerState) (self : SocketId)
    (k : RoutedKind) (target blob : String) (tsid : SocketId)
    (hT : objGet st.users target = some tsid)
    (hU : objGet st.socketUserId self = none) :
    (handle st self (routedIn k target blob)).2
      = [Emit.toSock tsid (routedOut k none blob)] ∧
    (handle st self (routedIn k target blob)).2 ≠ [] := by
  have hemits : (handle st self (routedIn k target blob)).2
      = [Emit.toSock tsid (routedOut k none blob)] := by
    cases k <;> simp [routedIn, routedOut, handle, hT, hU]
  exact ⟨hemits, by simp [hemits]⟩

/-- C10 witness at a concrete input: socket s1 never logged in, yet its
offer to bob is forwarded with an undefined fromUserId. -/
theorem unannounced_sender_still_routed_witness :
    (handle (ServerState.mk [("bob", "s2")] [] ["s1", "s2"]) "s1"
        (routedIn RoutedKind.offer "bob" "sdp1")).2
      = [Emit.toSock "s2" (routedOut RoutedKind.offer none "sdp1")] ∧
    (handle (ServerState.mk [("bob", "s2")] [] ["s1", "s2"]) "s1"
        (routedIn RoutedKind.offer "bob" "sdp1")).2 ≠ [] :=
  unannounced_sender_still_routed
    (ServerState.mk [("bob", "s2")] [] ["s1", "s2"]) "s1"
    RoutedKind.offer "bob" "sdp1" "s2" rfl rfl

/-- C7: a login with a non-empty identifier broadcasts the updated
user-id list, and every connected socket other than the announcing one
receives that list. -/
theorem login_broadcasts_user_list (st : ServerState) (self : SocketId) (u : String)
    (hu : u ≠ "") :
    (handle st self (InEvent.login (some u))).2
      = [Emit.broadcastAll (OutEvent.userList (objKeys (objSet st.users u self)))] ∧
    ∀ c ∈ st.conns, c ≠ self →
      OutEvent.userList (objKeys (objSet st.users u self))
        ∈ deliveredTo st.conns (handle st self (InEvent.login (some u))).2 c := by
  have hemits : (handle st self (InEvent.login (some u))).2
      = [Emit.broadcastAll (OutEvent.userList (objKeys (objSet st.users u self)))] := by
    simp [handle, hu]
  refine ⟨hemits, ?_⟩
  intro c hc _
  rw [hemits, deliveredTo_broadcastAll]
  refine List.mem_replicate.mpr ⟨?_, rfl⟩
  intro h0
  exact List.count_eq_zero.mp h0 hc

/-- C7 witness at a concrete input: with sockets s1 and s2 connected,
s1 logs in as alice and s2 receives the updated list. -/
theorem login_broadcasts_user_list_witness :
    (handle (ServerState.mk [] [] ["s1", "s2"]) "s1" (InEvent.login (some "alice"))).2
      = [Emit.broadcastAll (OutEvent.userList ["alice"])] ∧
    OutEvent.userList ["alice"]
      ∈ deliveredTo ["s1", "s2"]
          ((handle (ServerState.mk [] [] ["s1", "s2"]) "s1"
            (InEvent.login (some "alice"))).2) "s2" := by
  have h := login_broadcasts_user_list (ServerState.mk [] [] ["s1", "s2"]) "s1" "alice"
    (by decide)
  exact ⟨h.1, h.2 "s2" (by decide) (by decide)⟩

/-- C4 counterexample: alice at socket s1 and bob at socket s2 are
registered; s1 disconnects. The only emitted event is the updated
user-list, and no emitted event names the departed id alice, so no
leave notification naming alice reaches anyone. -/
theorem disconnect_emits_no_leave_name :
    (handle (ServerState.mk [("alice", "s1"), ("bob", "s2")]
        [("s1", "alice"), ("s2", "bob")] ["s1", "s2"]) "s1" InEvent.disconnect).2
      = [Emit.broadcastAll (OutEvent.userList ["bob"])] ∧
    ((handle (ServerState.mk [("alice", "s1"), ("bob", "s2")]
        [("s1", "alice"), ("s2", "bob")] ["s1", "s2"]) "s1" InEvent.disconnect).2).all
        (fun e => !(emitNames e "alice"))
      = true := by
  refine ⟨by decide, by decide⟩

/-- C4 (amended): on disconnect of a logged-in socket, its recorded
user id is deleted from the users object and the updated user-list
(which no longer contains the departed id as a key) is broadcast,
reaching every other connected socket exactly once; no discrete leave
event naming the departed id is emitted. -/
theorem disconnect_removes_id_and_broadcasts_list (st : ServerState) (self : SocketId)
    (u : String)
    (hU : objGet st.socketUserId self = some u) (hNe : u ≠ "")
    (hN : st.conns.Nodup) :
    objGet (handle st self InEvent.disconnect).1.users u = none ∧
    (handle st self InEvent.disconnect).2
      = [Emit.broadcastAll (OutEvent.userList (objKeys (objDelete st.users u)))] ∧
    u ∉ objKeys (objDelete st.users u) ∧
    ∀ c ∈ st.conns, c ≠ self →
      deliveredTo (handle st self InEvent.disconnect).1.conns
          (handle st self InEvent.disconnect).2 c
        = [OutEvent.userList (objKeys (objDelete st.users u))] := by
  have hstep : handle st self InEvent.disconnect
      = (ServerState.mk (objDelete st.users u) st.socketUserId
          (st.conns.filter (fun c => c ≠ self)),
         [Emit.broadcastAll (OutEvent.userList (objKeys (objDelete st.users u)))]) := by
    simp [handle, hU, hNe]
  rw [hstep]
  refine ⟨objGet_objDelete_self _ _, rfl,
    not_mem_objKeys_of_objGet_none _ _ (objGet_objDelete_self _ _), ?_⟩
  intro c hc hcs
  rw [deliveredTo_broadcastAll]
  have hmemf : c ∈ st.conns.filter (fun x => x ≠ self) := by
    simp only [List.mem_filter]
    exact ⟨hc, by simp [hcs]⟩
  have h1 : (st.conns.filter (fun x => x ≠ self)).count c = 1 :=
    List.count_eq_one_of_mem (hN.filter _) hmemf
  rw [h1]
  rfl

/-- C4 witness at a concrete input: alice at s1 and bob at s2 are
registered, s1 disconnects; alice is gone from the users object and s2
receives the updated list exactly once. -/
theorem disconnect_removes_id_and_broadcasts_list_witness :
    objGet (handle (ServerState.mk [("alice", "s1"), ("bob", "s2")]
        [("s1", "alice"), ("s2", "bob")] ["s1", "s2"]) "s1" InEvent.disconnect).1.users "alice"
      = none ∧
    deliveredTo (handle (ServerState.mk [("alice", "s1"), ("bob", "s2")]
          [("s1", "alice"), ("s2", "bob")] ["s1", "s2"]) "s1" InEvent.disconnect).1.conns
        ((handle (ServerState.mk [("alice", "s1"), ("bob", "s2")]
          [("s1", "alice"), ("s2", "bob")] ["s1", "s2"]) "s1" InEvent.disconnect).2) "s2"
      = [OutEvent.userList (objKeys (objDelete [("alice", "s1"), ("bob", "s2")] "alice"))] := by
  have h := disconnect_removes_id_and_broadcasts_list
    (ServerState.mk [("alice", "s1"), ("bob", "s2")]
      [("s1", "alice"), ("s2", "bob")] ["s1", "s2"]) "s1" "alice" rfl (by decide) (by decide)
  exact ⟨h.1, h.2.2.2 "s2" (by decide) (by decide)⟩

/-- C5: socket a logs in as x, then socket b logs in as the same x
(overwriting the mapping to b), then a disconnects while b stays
connected; the disconnect deletes the users entry for x, so x is no
longer routable even though b is still connected. -/
theorem stale_login_disconnect_unroutes_live (st st1 st2 st3 : ServerState)
    (a b x : String) (e1 e2 e3 : List Emit)
    (hab : a ≠ b) (hx : x ≠ "") (hb : b ∈ st.conns)
    (h1 : handle st a (InEvent.login (some x)) = (st1, e1))
    (h2 : handle st1 b (InEvent.login (some x)) = (st2, e2))
    (h3 : handle st2 a InEvent.disconnect = (st3, e3)) :
    objGet st2.users x = some b ∧ objGet st3.users x = none ∧ b ∈ st3.conns := by
  have hst1 : st1
      = ServerState.mk (objSet st.users x a) (objSet st.socketUserId a x) st.conns := by
    have h := congrArg Prod.fst h1
    simp only [handle, hx, if_neg hx] at h
    exact h.symm
  have hst2 : st2
      = ServerState.mk (objSet st1.users x b) (objSet st1.socketUserId b x) st1.conns := by
    have h := congrArg Prod.fst h2
    simp only [handle, hx, if_neg hx] at h
    exact h.symm
  have hget2 : objGet st2.users x = some b := by
    rw [hst2]
    exact objGet_objSet_self _ _ _
  have hsuid : objGet st2.socketUserId a = some x := by
    rw [hst2]
    show objGet (objSet st1.socketUserId b x) a = some x
    rw [objGet_objSet_other _ _ _ _ hab, hst1]
    exact objGet_objSet_self _ _ _
  have hst3 : st3
      = ServerState.mk (objDelete st2.users x) st2.socketUserId
          (st2.conns.filter (fun c => c ≠ a)) := by
    have h := congrArg Prod.fst h3
    simp only [handle, hsuid, if_neg hx] at h
    exact h.symm
  have hconns : st2.conns = st.conns := by
    rw [hst2, hst1]
  refine ⟨hget2, ?_, ?_⟩
  · rw [hst3]
    exact objGet_objDelete_self _ _
  · rw [hst3]
    show b ∈ st2.conns.filter (fun c => c ≠ a)
    refine List.mem_filter.mpr ⟨?_, by simp [Ne.symm hab]⟩
    rw [hconns]
    exact hb

/-- C5 witness: the scenario run at concrete inputs, sockets sA and sB
and id bob. -/
theorem stale_login_disconnect_unroutes_live_witness :
    objGet [("bob", "sB")] "bob" = some "sB" ∧
    objGet ([] : ObjMap) "bob" = none ∧
    "sB" ∈ (["sB"] : List SocketId) := by
  exact stale_login_disconnect_unroutes_live
    (ServerState.mk [] [] ["sA", "sB"])
    (ServerState.mk [("bob", "sA")] [("sA", "bob")] ["sA", "sB"])
    (ServerState.mk [("bob", "sB")] [("sA", "bob"), ("sB", "bob")] ["sA", "sB"])
    (ServerState.mk [] [("sA", "bob"), ("sB", "bob")] ["sB"])
    "sA" "sB" "bob"
    [Emit.broadcastAll (OutEvent.userList ["bob"])]
    [Emit.broadcastAll (OutEvent.userList ["bob"])]
    [Emit.broadcastAll (OutEvent.userList [])]
    (by decide) (by decide) (by decide) rfl rfl rfl

/-- C8: in the discovery configuration, a newly connected socket is
sent, before any announcement, exactly the snapshot of currently
connected socket ids with itself excluded: the list it receives never
contains its own id, and contains an id precisely when that id is in
the socket set and differs from its own. -/
theorem connect_sends_present_users (st : SigState) (self : SocketId) :
    deliveredTo1 (connectStep st self).1.conns (connectStep st self).2 self
      = [Out1.usersPresent ((st.conns ++ [self]).filter (fun id => id ≠ self))] ∧
    self ∉ (st.conns ++ [self]).filter (fun id => id ≠ self) ∧
    ∀ x : SocketId, x ∈ (st.conns ++ [self]).filter (fun id => id ≠ self)
      ↔ (x ∈ st.conns ++ [self] ∧ x ≠ self) := by
  refine ⟨?_, ?_, ?_⟩
  · show deliveredTo1 (st.conns ++ [self]) _ self = _
    rw [connectStep, deliveredTo1_cons]
    rw [deliveredTo1_toSock_mem _ _ _ (by simp)]
    have h2 : deliveredTo1 (st.conns ++ [self])
        [Emit1.broadcastOthers self (Out1.userJoined self)] self = [] :=
      deliveredTo1_broadcastOthers_self _ _ _
    rw [h2]
    simp
  · simp [List.mem_filter]
  · intro x
    constructor
    · intro hx
      have h := List.mem_filter.mp hx
      exact ⟨h.1, by simpa using h.2⟩
    · intro hx
      exact List.mem_filter.mpr ⟨hx.1, by simpa using hx.2⟩

/-- C8 witness at a concrete input: s2 connects while s1 is present and
receives the snapshot containing exactly s1. -/
theorem connect_sends_present_users_witness :
    deliveredTo1 (connectStep (SigState.mk ["s1"]) "s2").1.conns
        (connectStep (SigState.mk ["s1"]) "s2").2 "s2"
      = [Out1.usersPresent ((["s1"] ++ ["s2"]).filter (fun id => id ≠ "s2"))] ∧
    ("s1" ∈ (["s1"] ++ ["s2"]).filter (fun id => id ≠ "s2") ↔
      ("s1" ∈ ["s1"] ++ ["s2"] ∧ ("s1" : String) ≠ "s2")) := by
  have h := connect_sends_present_users (SigState.mk ["s1"]) "s2"
  exact ⟨h.1, h.2.2 "s1"⟩

end DateHere
